import Mathlib

/-!
Shallow embedding of the microstrip patch antenna calculation engine
(class MicrostripPatchAntennaCalculator in v.5.py) over the real numbers.

Modelling choices:
  - scipy.integrate.quad and scipy.integrate.dblquad are modelled by the
    exact interval integral (the value the adaptive quadrature approximates);
  - scipy.special.j0 is modelled by the classical integral representation of
    the zeroth-order Bessel function of the first kind;
  - Python floats become real numbers; the numeric literals (3e8, 1e-12,
    0.824, 0.412, ...) are kept exactly as written in the source.
-/

noncomputable section

open intervalIntegral

/-- Speed of light constant, self.c = 3e8 in MicrostripPatchAntennaCalculator.__init__. -/
def c : ℝ := 3e8

/-- Zeroth-order Bessel function of the first kind, modelling scipy.special.j0
via its classical integral representation. -/
def besselJ0 (x : ℝ) : ℝ :=
  (1 / Real.pi) * ∫ t in (0:ℝ)..Real.pi, Real.cos (x * Real.sin t)

/-- calculate_patch_width(fr, epsilon_r): W = (c / (2 fr)) * sqrt(2 / (epsilon_r + 1)). -/
def calculate_patch_width (fr epsilon_r : ℝ) : ℝ :=
  (c / (2 * fr)) * Real.sqrt (2 / (epsilon_r + 1))

/-- calculate_effective_permittivity(epsilon_r, h, W):
term = 1 / sqrt(1 + 12 (h/W)); result = (epsilon_r+1)/2 + (epsilon_r-1)/2 * term. -/
def calculate_effective_permittivity (epsilon_r h W : ℝ) : ℝ :=
  let term := 1 / Real.sqrt (1 + 12 * (h / W))
  (epsilon_r + 1) / 2 + (epsilon_r - 1) / 2 * term

/-- calculate_patch_length(fr, epsilon_ref, h, W):
L = c / (2 fr sqrt(epsilon_ref)) - 0.824 h * (num / den). -/
def calculate_patch_length (fr epsilon_ref h W : ℝ) : ℝ :=
  let term1 := c / (2 * fr * Real.sqrt epsilon_ref)
  let term2_numerator := (epsilon_ref + 0.3) * (W / h + 0.264)
  let term2_denominator := (epsilon_ref - 0.258) * (W / h + 0.8)
  let term2 := 0.824 * h * (term2_numerator / term2_denominator)
  term1 - term2

/-- Integrand of the G1 slot-conductance integral, as the closure integrand_G1
inside calculate_conductances (it captures k0 and W, not L). -/
def integrand_G1 (k0 W theta : ℝ) : ℝ :=
  (Real.sin ((k0 * W / 2) * Real.cos theta) / Real.cos theta) ^ 2 *
    Real.sin theta ^ 3

/-- Integrand of the G12 mutual-conductance integral, as the closure
integrand_G12 inside calculate_conductances (it also captures L through j0). -/
def integrand_G12 (k0 W L theta : ℝ) : ℝ :=
  (Real.sin ((k0 * W / 2) * Real.cos theta) / Real.cos theta) ^ 2 *
    besselJ0 (k0 * L * Real.sin theta) * Real.sin theta ^ 3

/-- calculate_conductances(W, L, fr): integrate both integrands over [0, pi],
divide by 120 pi^2, and clamp each result to the floor 1e-12 via max. -/
def calculate_conductances (W L fr : ℝ) : ℝ × ℝ :=
  let lambda_0 := c / fr
  let k0 := 2 * Real.pi / lambda_0
  let G1 := (∫ theta in (0:ℝ)..Real.pi, integrand_G1 k0 W theta) / (120 * Real.pi ^ 2)
  let G12 := (∫ theta in (0:ℝ)..Real.pi, integrand_G12 k0 W L theta) / (120 * Real.pi ^ 2)
  (max G1 1e-12, max G12 1e-12)

/-- calculate_input_impedance_edge(G1, G12): R_in = 1 / (2 (G1 + G12)). -/
def calculate_input_impedance_edge (G1 G12 : ℝ) : ℝ :=
  1 / (2 * (G1 + G12))

/-- calculate_feed_position(R_in_edge, L): 0 below 50 ohms, else the inset
point (L / pi) * arccos(sqrt(50 / R_in_edge)). -/
def calculate_feed_position (R_in_edge L : ℝ) : ℝ :=
  if R_in_edge < 50 then 0
  else (L / Real.pi) * Real.arccos (Real.sqrt (50 / R_in_edge))

/-- Integrand of the directivity double integral, as the closure integrand_I1
inside calculate_directivity; Leff is recomputed inside from fr and
epsilon_ref, independent of the fringed L. -/
def integrand_I1 (W fr epsilon_ref theta phi : ℝ) : ℝ :=
  let lambda_0 := c / fr
  let k0 := 2 * Real.pi / lambda_0
  let value1 := Real.sin ((k0 * W / 2) * Real.cos theta) / Real.cos theta
  let term1 := value1 ^ 2 * Real.sin theta ^ 3
  let Leff := c / (2 * fr * Real.sqrt epsilon_ref)
  let term2 := Real.cos ((k0 * Leff / 2) * Real.sin theta * Real.sin phi) ^ 2
  term1 * term2

/-- The value of scipy.integrate.dblquad(integrand_I1, 0, pi, 0, pi) in
calculate_directivity: theta is the inner variable, phi the outer one. -/
def I1value (W fr epsilon_ref : ℝ) : ℝ :=
  ∫ phi in (0:ℝ)..Real.pi, ∫ theta in (0:ℝ)..Real.pi,
    integrand_I1 W fr epsilon_ref theta phi

/-- calculate_directivity(W, L, fr, epsilon_ref): if I1 > 0 then
10 log10(((2 pi W) / lambda_0)^2 * (pi / I1)) else 0.  L is a parameter of
the source function but is not used by the integrand. -/
def calculate_directivity (W L fr epsilon_ref : ℝ) : ℝ :=
  let lambda_0 := c / fr
  let I1 := I1value W fr epsilon_ref
  if 0 < I1 then 10 * Real.logb 10 (((2 * Real.pi * W) / lambda_0) ^ 2 * (Real.pi / I1))
  else 0

/-- The results dictionary assembled by calculate_antenna_parameters. -/
structure AntennaResults where
  resonant_frequency : ℝ
  substrate_permittivity : ℝ
  substrate_height : ℝ
  patch_width : ℝ
  patch_length : ℝ
  effective_permittivity : ℝ
  single_slot_conductance : ℝ
  mutual_conductance : ℝ
  input_impedance_edge : ℝ
  feed_position_50ohm : ℝ
  directivity : ℝ

/-- calculate_antenna_parameters(fr, epsilon_r, h): the full pipeline. -/
def calculate_antenna_parameters (fr epsilon_r h : ℝ) : AntennaResults :=
  let W := calculate_patch_width fr epsilon_r
  let epsilon_ref := calculate_effective_permittivity epsilon_r h W
  let L := calculate_patch_length fr epsilon_ref h W
  let G := calculate_conductances W L fr
  let R_in_edge := calculate_input_impedance_edge G.1 G.2
  let y0 := calculate_feed_position R_in_edge L
  let D := calculate_directivity W L fr epsilon_ref
  { resonant_frequency := fr
    substrate_permittivity := epsilon_r
    substrate_height := h
    patch_width := W
    patch_length := L
    effective_permittivity := epsilon_ref
    single_slot_conductance := G.1
    mutual_conductance := G.2
    input_impedance_edge := R_in_edge
    feed_position_50ohm := y0
    directivity := D }

end

/-- C1: the feed-position operation returns 0 exactly when the edge impedance
is below 50 ohms and (L/pi) * arccos(sqrt(50/R)) otherwise; at the boundary
R = 50 the selected branch returns 0 and the analytic branch formula also
evaluates to 0, so the two branches agree there. -/
theorem feed_position_branches (R L : ℝ) :
    calculate_feed_position R L =
      (if R < 50 then 0 else (L / Real.pi) * Real.arccos (Real.sqrt (50 / R))) ∧
    calculate_feed_position 50 L = 0 ∧
    (L / Real.pi) * Real.arccos (Real.sqrt (50 / 50)) = 0 := by
  refine ⟨rfl, ?_, ?_⟩
  · unfold calculate_feed_position
    rw [if_neg (lt_irrefl (50:ℝ))]
    norm_num [Real.sqrt_one, Real.arccos_one]
  · norm_num [Real.sqrt_one, Real.arccos_one]

/-- C2 counterexample: at epsilon_r = 1, h = 1, W = 1 the effective
permittivity equals (epsilon_r + 1) / 2 = 1 exactly, so it is not strictly
greater than (epsilon_r + 1) / 2 as the claim requires. -/
theorem effective_permittivity_counterexample :
    ¬ (((1:ℝ) + 1) / 2 < calculate_effective_permittivity 1 1 1) := by
  unfold calculate_effective_permittivity
  norm_num

/-- C2 (amended): for epsilon_r strictly above 1 (and h, W positive) the
effective permittivity lies strictly between (epsilon_r + 1) / 2 and
epsilon_r and is strictly decreasing in the ratio h / W; at epsilon_r = 1
the value is identically 1, which equals both interval endpoints. -/
theorem effective_permittivity_range_mono (epsilon_r h W h2 W2 : ℝ)
    (he : 1 < epsilon_r) (hh : 0 < h) (hW : 0 < W) (hh2 : 0 < h2) (hW2 : 0 < W2)
    (hr : h / W < h2 / W2) :
    (epsilon_r + 1) / 2 < calculate_effective_permittivity epsilon_r h W ∧
    calculate_effective_permittivity epsilon_r h W ≤ epsilon_r ∧
    calculate_effective_permittivity epsilon_r h2 W2 <
      calculate_effective_permittivity epsilon_r h W ∧
    calculate_effective_permittivity 1 h W = 1 := by
  have hcoef : 0 < (epsilon_r - 1) / 2 := by linarith
  have hr1 : 0 < h / W := div_pos hh hW
  have hs1 : (1:ℝ) < Real.sqrt (1 + 12 * (h / W)) := by
    have := Real.sqrt_lt_sqrt (by norm_num : (0:ℝ) ≤ 1) (by linarith : (1:ℝ) < 1 + 12 * (h / W))
    rwa [Real.sqrt_one] at this
  have hs1pos : (0:ℝ) < Real.sqrt (1 + 12 * (h / W)) := by linarith
  have ht1pos : 0 < 1 / Real.sqrt (1 + 12 * (h / W)) := by positivity
  have ht1lt : 1 / Real.sqrt (1 + 12 * (h / W)) < 1 := by
    rw [div_lt_one hs1pos]; exact hs1
  refine ⟨?_, ?_, ?_, ?_⟩
  · unfold calculate_effective_permittivity
    have := mul_pos hcoef ht1pos
    simp only
    linarith
  · unfold calculate_effective_permittivity
    have : (epsilon_r - 1) / 2 * (1 / Real.sqrt (1 + 12 * (h / W))) ≤
        (epsilon_r - 1) / 2 * 1 :=
      mul_le_mul_of_nonneg_left (le_of_lt ht1lt) (le_of_lt hcoef)
    simp only
    linarith
  · have hs12 : Real.sqrt (1 + 12 * (h / W)) < Real.sqrt (1 + 12 * (h2 / W2)) :=
      Real.sqrt_lt_sqrt (by positivity) (by linarith)
    have htlt : 1 / Real.sqrt (1 + 12 * (h2 / W2)) < 1 / Real.sqrt (1 + 12 * (h / W)) :=
      one_div_lt_one_div_of_lt hs1pos hs12
    have := mul_lt_mul_of_pos_left htlt hcoef
    unfold calculate_effective_permittivity
    simp only
    linarith
  · unfold calculate_effective_permittivity
    norm_num

/-- C2 witness: the amended theorem at epsilon_r = 2, (h, W) = (1, 1) and
(h2, W2) = (2, 1). -/
theorem effective_permittivity_range_mono_witness :
    ((2:ℝ) + 1) / 2 < calculate_effective_permittivity 2 1 1 ∧
    calculate_effective_permittivity 2 1 1 ≤ 2 ∧
    calculate_effective_permittivity 2 2 1 < calculate_effective_permittivity 2 1 1 ∧
    calculate_effective_permittivity 1 1 1 = 1 :=
  effective_permittivity_range_mono 2 1 1 2 1 (by norm_num) (by norm_num)
    (by norm_num) (by norm_num) (by norm_num) (by norm_num)

/-- C4: both components returned by calculate_conductances are clamped from
below by 1e-12, hence strictly positive, for every W, L, fr. -/
theorem conductances_floored (W L fr : ℝ) :
    1e-12 ≤ (calculate_conductances W L fr).1 ∧
    1e-12 ≤ (calculate_conductances W L fr).2 ∧
    0 < (calculate_conductances W L fr).1 ∧
    0 < (calculate_conductances W L fr).2 := by
  have h1 : 1e-12 ≤ (calculate_conductances W L fr).1 := le_max_right _ _
  have h2 : 1e-12 ≤ (calculate_conductances W L fr).2 := le_max_right _ _
  have hpos : (0:ℝ) < 1e-12 := by norm_num
  exact ⟨h1, h2, lt_of_lt_of_le hpos h1, lt_of_lt_of_le hpos h2⟩

/-- C6: the patch length computed by the source equals the spec formula
L = c / (2 fr sqrt(epsilon_ref)) - 2 * DeltaL with the fringing extension
DeltaL = 0.412 h (epsilon_ref + 0.3)(W/h + 0.264) /
[(epsilon_ref - 0.258)(W/h + 0.8)]; the source folds the factor 2 into the
literal 0.824 = 2 * 0.412. -/
theorem patch_length_formula (fr epsilon_ref h W : ℝ) :
    calculate_patch_length fr epsilon_ref h W =
      c / (2 * fr * Real.sqrt epsilon_ref) -
        2 * (0.412 * h * ((epsilon_ref + 0.3) * (W / h + 0.264)) /
          ((epsilon_ref - 0.258) * (W / h + 0.8))) := by
  unfold calculate_patch_length
  ring

/-- C7: the speed-of-light constant is the accepted approximation 3e8 (not
2.998e8), and the patch width is (c / (2 fr)) * sqrt(2 / (epsilon_r + 1)). -/
theorem patch_width_formula :
    c = 3e8 ∧
    ∀ fr epsilon_r : ℝ,
      calculate_patch_width fr epsilon_r =
        (3e8 / (2 * fr)) * Real.sqrt (2 / (epsilon_r + 1)) :=
  ⟨rfl, fun _ _ => rfl⟩

/-- C8: under the floor preconditions G1, G12 >= 1e-12 the edge input
impedance 1 / (2 (G1 + G12)) is strictly positive and at most 5e11. -/
theorem input_impedance_edge_bounds (G1 G12 : ℝ)
    (h1 : 1e-12 ≤ G1) (h2 : 1e-12 ≤ G12) :
    0 < calculate_input_impedance_edge G1 G12 ∧
    calculate_input_impedance_edge G1 G12 ≤ 5e11 := by
  unfold calculate_input_impedance_edge
  have hsum : (4e-12 : ℝ) ≤ 2 * (G1 + G12) := by norm_num at h1 h2 ⊢; linarith
  have hpos : (0:ℝ) < 2 * (G1 + G12) := by linarith [show (0:ℝ) < 4e-12 by norm_num]
  constructor
  · positivity
  · calc 1 / (2 * (G1 + G12)) ≤ 1 / (4e-12 : ℝ) :=
          one_div_le_one_div_of_le (by norm_num) hsum
      _ ≤ 5e11 := by norm_num

/-- C8 witness: the bounds at the concrete floor values G1 = G12 = 1e-12. -/
theorem input_impedance_edge_bounds_witness :
    0 < calculate_input_impedance_edge 1e-12 1e-12 ∧
    calculate_input_impedance_edge 1e-12 1e-12 ≤ 5e11 :=
  input_impedance_edge_bounds 1e-12 1e-12 (le_refl _) (le_refl _)

/-- C10: the first component of calculate_conductances does not depend on the
patch length L, because the closure integrand_G1 captures only k0 and W. -/
theorem g1_independent_of_patch_length (W fr L1 L2 : ℝ) :
    (calculate_conductances W L1 fr).1 = (calculate_conductances W L2 fr).1 := rfl

/-- C5: calculate_directivity substitutes the 0 dBi sentinel when the double
integral I1 is not positive, and otherwise returns 10 * log10(D) with
D = ((2 pi W) / lambda_0)^2 * (pi / I1) and lambda_0 = c / fr. -/
theorem directivity_sentinel (W L fr epsilon_ref : ℝ) :
    (I1value W fr epsilon_ref ≤ 0 → calculate_directivity W L fr epsilon_ref = 0) ∧
    (0 < I1value W fr epsilon_ref →
      calculate_directivity W L fr epsilon_ref =
        10 * Real.logb 10 (((2 * Real.pi * W) / (c / fr)) ^ 2 *
          (Real.pi / I1value W fr epsilon_ref))) := by
  unfold calculate_directivity
  constructor
  · intro h
    rw [if_neg (not_lt.mpr h)]
  · intro h
    rw [if_pos h]

/-- C5 witness: at W = 0 the integrand vanishes identically, so I1 = 0 and
the sentinel branch is taken. -/
theorem directivity_sentinel_witness : calculate_directivity 0 1 1 1 = 0 := by
  have hzero : ∀ theta phi : ℝ, integrand_I1 0 1 1 theta phi = 0 := by
    intro theta phi
    unfold integrand_I1
    simp
  have hI : I1value 0 1 1 = 0 := by
    unfold I1value
    simp only [hzero]
    simp
  exact (directivity_sentinel 0 1 1 1).1 (le_of_eq hI)

/-- Helper: for every impedance R, the feed position lies in [0, L/2] as soon
as the patch length L is nonnegative. -/
theorem calculate_feed_position_mem (R L : ℝ) (hL : 0 ≤ L) :
    0 ≤ calculate_feed_position R L ∧ calculate_feed_position R L ≤ L / 2 := by
  unfold calculate_feed_position
  split_ifs with hR
  · exact ⟨le_refl 0, by linarith⟩
  · have ha0 : 0 ≤ Real.arccos (Real.sqrt (50 / R)) := Real.arccos_nonneg _
    have ha2 : Real.arccos (Real.sqrt (50 / R)) ≤ Real.pi / 2 :=
      Real.arccos_le_pi_div_two.mpr (Real.sqrt_nonneg _)
    have hLpi : 0 ≤ L / Real.pi := div_nonneg hL Real.pi_pos.le
    constructor
    · exact mul_nonneg hLpi ha0
    · have hstep : L / Real.pi * Real.arccos (Real.sqrt (50 / R)) ≤
          L / Real.pi * (Real.pi / 2) := mul_le_mul_of_nonneg_left ha2 hLpi
      have heq : L / Real.pi * (Real.pi / 2) = L / 2 := by
        field_simp
      linarith

/-- Helper: whenever the patch length is strictly negative, the feed position
cannot lie in [0, L/2], whatever the edge impedance is. -/
theorem feed_position_violation (R L : ℝ) (hL : L < 0) :
    ¬ (0 ≤ calculate_feed_position R L ∧ calculate_feed_position R L ≤ L / 2) := by
  unfold calculate_feed_position
  split_ifs with hR
  · rintro ⟨h1, h2⟩
    linarith
  · rintro ⟨h1, h2⟩
    have ha0 : 0 ≤ Real.arccos (Real.sqrt (50 / R)) := Real.arccos_nonneg _
    rcases ha0.eq_or_lt with heq | hlt
    · rw [← heq, mul_zero] at h2
      linarith
    · have hneg : L / Real.pi < 0 := div_neg_of_neg_of_pos hL Real.pi_pos
      have hprod : L / Real.pi * Real.arccos (Real.sqrt (50 / R)) < 0 :=
        mul_neg_of_neg_of_pos hneg hlt
      linarith

/-- Helper: at fr = 1.5e8 and epsilon_r = 1 the patch width evaluates to 1. -/
theorem patch_width_eval : calculate_patch_width 1.5e8 1 = 1 := by
  unfold calculate_patch_width c
  rw [show (2:ℝ) / (1 + 1) = 1 by norm_num, Real.sqrt_one]
  norm_num

/-- Helper: at epsilon_r = 1 the effective permittivity is identically 1. -/
theorem eff_perm_eval (h W : ℝ) : calculate_effective_permittivity 1 h W = 1 := by
  unfold calculate_effective_permittivity
  norm_num

/-- C9 (amended): whenever the patch length in the assembled AntennaResults is
nonnegative, the feed position lies in [0, patch_length / 2]; the original
claim fails for the degenerate inputs on which the unguarded patch-length
formula goes negative. -/
theorem feed_position_in_range (fr epsilon_r h : ℝ)
    (hL : 0 ≤ (calculate_antenna_parameters fr epsilon_r h).patch_length) :
    0 ≤ (calculate_antenna_parameters fr epsilon_r h).feed_position_50ohm ∧
    (calculate_antenna_parameters fr epsilon_r h).feed_position_50ohm ≤
      (calculate_antenna_parameters fr epsilon_r h).patch_length / 2 := by
  simp only [calculate_antenna_parameters] at hL ⊢
  exact calculate_feed_position_mem _ _ hL

/-- C9 witness: at fr = 1.5e8 Hz, epsilon_r = 1, h = 0.001 m the patch length
is positive and the feed position lies in [0, patch_length / 2]. -/
theorem feed_position_in_range_witness :
    0 ≤ (calculate_antenna_parameters 1.5e8 1 0.001).feed_position_50ohm ∧
    (calculate_antenna_parameters 1.5e8 1 0.001).feed_position_50ohm ≤
      (calculate_antenna_parameters 1.5e8 1 0.001).patch_length / 2 :=
  feed_position_in_range 1.5e8 1 0.001 (by
    simp only [calculate_antenna_parameters]
    rw [patch_width_eval, eff_perm_eval]
    unfold calculate_patch_length c
    rw [Real.sqrt_one]
    norm_num)

/-- C9 counterexample: at fr = 1.5e8 Hz, epsilon_r = 1, h = 100 m (inputs
satisfying fr > 0, epsilon_r >= 1, h > 0) the pipeline produces a negative
patch length, and the feed position does not lie in [0, patch_length / 2]. -/
theorem feed_position_counterexample :
    ¬ (0 ≤ (calculate_antenna_parameters 1.5e8 1 100).feed_position_50ohm ∧
      (calculate_antenna_parameters 1.5e8 1 100).feed_position_50ohm ≤
        (calculate_antenna_parameters 1.5e8 1 100).patch_length / 2) := by
  intro hcl
  simp only [calculate_antenna_parameters] at hcl
  refine feed_position_violation _ _ ?_ hcl
  rw [patch_width_eval, eff_perm_eval]
  unfold calculate_patch_length c
  rw [Real.sqrt_one]
  norm_num
